import Mathlib

/-!
# Verification of the parcel store (`parcel.go`)

A shallow embedding of the guarded persistence layer of the parcel
tracker.  The durable SQLite table `parcel` is modelled as a list of
rows together with the auto-increment counter that the storage backend
uses to assign tracking numbers.  Each Go method of `ParcelStore`
becomes a Lean function on this state:

* `Add`        → `ParcelStore.add` (INSERT, returns the generated id)
* `Get`        → `ParcelStore.get` (SELECT one row by number)
* `GetByClient`→ `ParcelStore.getByClient` (SELECT rows by client)
* `SetStatus`  → `ParcelStore.setStatus` (unconditional UPDATE)
* `SetAddress` → `ParcelStore.setAddress` (UPDATE guarded by status)
* `Delete`     → `ParcelStore.delete` (DELETE guarded by status)

Failures of the storage backend are modelled by explicit fault
parameters on the `E`-suffixed variants: each Go method performs a
single `Exec`/`Query` round trip and checks its error once, so a fault
is one optional error code injected at that call site.
-/

namespace ParcelStore

/-- One parcel record, with the five columns of the `parcel` table
(`number`, `client`, `status`, `address`, `created_at`).
The Go struct `Parcel` itself is declared outside `parcel.go`;
its field set is fixed by the scan targets of `Get`/`GetByClient`. -/
structure Parcel where
  number : Int
  client : Int
  status : String
  address : String
  createdAt : String
deriving Repr, DecidableEq

/-- Modelled from the spec: the constant `ParcelStatusRegistered`
(declared outside `parcel.go`) is the fixed text `registered` used by
the guards of `SetAddress` and `Delete`. -/
def ParcelStatusRegistered : String := "registered"

/-- Modelled from the spec: the constant `ParcelStatusSent`. -/
def ParcelStatusSent : String := "sent"

/-- Modelled from the spec: the constant `ParcelStatusDelivered`. -/
def ParcelStatusDelivered : String := "delivered"

/-- The durable state: the rows of the `parcel` table in storage order,
and the next auto-increment value for the `number` column. -/
structure DB where
  rows : List Parcel
  next : Int
deriving Repr, DecidableEq

/-- Storage well-formedness, guaranteed by the backend: every assigned
number is below the auto-increment counter, and `number` is a primary
key, so no two rows share a number. -/
def DB.wf (db : DB) : Prop :=
  (∀ r ∈ db.rows, r.number < db.next) ∧ (db.rows.map Parcel.number).Nodup

/-- Errors surfaced by the store.  `notFound` is `sql.ErrNoRows`, the
error `Get` receives when zero rows match; `backend c` stands for any
other failure of the storage backend, tagged by an opaque cause `c`
that identifies the original error value. -/
inductive StoreErr where
  | notFound : StoreErr
  | backend (cause : Nat) : StoreErr
deriving Repr, DecidableEq

/-- `Add`: INSERT the four caller-supplied fields (the `Number` field
of the argument is ignored); storage assigns the next number, and
`LastInsertId` reports it. -/
def add (db : DB) (p : Parcel) : DB × Int :=
  ({ rows := db.rows ++ [{ p with number := db.next }], next := db.next + 1 },
   db.next)

/-- `Get`: SELECT the row `WHERE number = :number`.  `QueryRow.Scan`
yields the first matching row, or `sql.ErrNoRows` when none matches. -/
def get (db : DB) (number : Int) : Except StoreErr Parcel :=
  match db.rows.find? (fun r => r.number == number) with
  | some r => .ok r
  | none => .error .notFound

/-- `GetByClient`: SELECT the rows `WHERE client = :client`, in
storage order. -/
def getByClient (db : DB) (client : Int) : List Parcel :=
  db.rows.filter (fun r => r.client == client)

/-- `SetStatus`: UPDATE `status` `WHERE number = :number`, with no
condition on the current status. -/
def setStatus (db : DB) (number : Int) (status : String) : DB :=
  { db with
    rows := db.rows.map (fun r =>
      if r.number == number then { r with status := status } else r) }

/-- `SetAddress`: UPDATE `address` `WHERE number = :number AND
status = :status`, the status bound to `ParcelStatusRegistered`; the
guard is part of the single UPDATE statement. -/
def setAddress (db : DB) (number : Int) (address : String) : DB :=
  { db with
    rows := db.rows.map (fun r =>
      if r.number == number && r.status == ParcelStatusRegistered then
        { r with address := address }
      else r) }

/-- `Delete`: DELETE `WHERE number = :number AND status = :status`,
the status bound to `ParcelStatusRegistered`; the guard is part of the
single DELETE statement. -/
def delete (db : DB) (number : Int) : DB :=
  { db with
    rows := db.rows.filter (fun r =>
      !(r.number == number && r.status == ParcelStatusRegistered)) }

/-- `Add` with its two fault sites: the `Exec` call and the
`LastInsertId` call.  On either failure the method logs and returns
`0` with the error unchanged; an `Exec` failure leaves the table
untouched. -/
def addE (execFault lastIdFault : Option Nat) (db : DB) (p : Parcel) :
    DB × Int × Option StoreErr :=
  match execFault with
  | some c => (db, 0, some (.backend c))
  | none =>
    let (db', id) := add db p
    match lastIdFault with
    | some c => (db', 0, some (.backend c))
    | none => (db', id, none)

/-- `Get` with the fault site of `QueryRow(...).Scan`: a backend
failure is returned unchanged; otherwise the row or `sql.ErrNoRows`. -/
def getE (fault : Option Nat) (db : DB) (number : Int) :
    Except StoreErr Parcel :=
  match fault with
  | some c => .error (.backend c)
  | none => get db number

/-- `SetStatus` with the fault site of `Exec`: the error is returned
unchanged and the table is untouched. -/
def setStatusE (fault : Option Nat) (db : DB) (number : Int)
    (status : String) : DB × Option StoreErr :=
  match fault with
  | some c => (db, some (.backend c))
  | none => (setStatus db number status, none)

/-- `SetAddress` with the fault site of `Exec`. -/
def setAddressE (fault : Option Nat) (db : DB) (number : Int)
    (address : String) : DB × Option StoreErr :=
  match fault with
  | some c => (db, some (.backend c))
  | none => (setAddress db number address, none)

/-- `Delete` with the fault site of `Exec`. -/
def deleteE (fault : Option Nat) (db : DB) (number : Int) :
    DB × Option StoreErr :=
  match fault with
  | some c => (db, some (.backend c))
  | none => (delete db number, none)

/-- The row-reading loop of `GetByClient`: `for rows.Next()` scans each
row in turn into the result slice; if `rows.Scan` fails at some
iteration the method returns the slice accumulated so far together
with that error.  `scanFault i` is the error, if any, that the scan of
the `i`-th fetched row reports. -/
def scanRows (remaining : List Parcel) (scanFault : Nat → Option Nat)
    (i : Nat) (acc : List Parcel) : List Parcel × Option StoreErr :=
  match remaining with
  | [] => (acc, none)
  | r :: rest =>
    match scanFault i with
    | some c => (acc, some (.backend c))
    | none => scanRows rest scanFault (i + 1) (acc ++ [r])

/-- `GetByClient` with its fault sites: the initial `Query` call, the
per-row `Scan` calls, and the final `rows.Err()` check after the loop
drains.  Each failing call returns the partial slice with the error
unchanged. -/
def getByClientE (queryFault : Option Nat) (scanFault : Nat → Option Nat)
    (iterFault : Option Nat) (db : DB) (client : Int) :
    List Parcel × Option StoreErr :=
  match queryFault with
  | some c => ([], some (.backend c))
  | none =>
    let (res, scanErr) := scanRows (getByClient db client) scanFault 0 []
    match scanErr with
    | some e => (res, some e)
    | none =>
      match iterFault with
      | some c => (res, some (.backend c))
      | none => (res, none)

/-- One mutating call of the store API, for reasoning about arbitrary
sequences of `SetStatus`, `SetAddress` and `Delete`. -/
inductive Mut where
  | setSt (n : Int) (s : String) : Mut
  | setAddr (n : Int) (a : String) : Mut
  | del (n : Int) : Mut
deriving Repr, DecidableEq

/-- Execute one mutating call. -/
def applyMut (db : DB) (m : Mut) : DB :=
  match m with
  | .setSt n s => setStatus db n s
  | .setAddr n a => setAddress db n a
  | .del n => delete db n

/-- Execute a sequence of mutating calls, oldest first. -/
def applyMuts (db : DB) (ms : List Mut) : DB :=
  ms.foldl applyMut db

/-- A concrete stored row in `registered` status, used to evaluate the
theorems below on explicit states. -/
def rowW : Parcel :=
  { number := 1, client := 1000, status := "registered",
    address := "test", createdAt := "2024-01-01T00:00:00Z" }

/-- A concrete stored row in `sent` status. -/
def rowW2 : Parcel :=
  { number := 2, client := 7, status := "sent",
    address := "b", createdAt := "2024-01-02T00:00:00Z" }

/-- A concrete well-formed table holding `rowW` and `rowW2`. -/
def dbW : DB := { rows := [rowW, rowW2], next := 3 }

/-!
## Helper lemmas

Facts about `find?` on the updated row lists, and uniqueness of
numbers under `DB.wf`, shared by the claim theorems below.
-/

/-- A row update that keeps the `number` column commutes with looking
a number up. -/
theorem find?_map_of_number_eq (upd : Parcel → Parcel)
    (h : ∀ r, (upd r).number = r.number) (l : List Parcel) (n : Int) :
    (l.map upd).find? (fun r => r.number == n) =
      (l.find? (fun r => r.number == n)).map upd := by
  rw [List.find?_map]
  have hp : ((fun r => r.number == n) ∘ upd) = (fun r => r.number == n) := by
    funext r
    simp [Function.comp, h]
  rw [hp]

/-- The `SetStatus` row update keeps the `number` column. -/
theorem setStatusUpd_number (n : Int) (s : String) (r : Parcel) :
    ((if r.number == n then { r with status := s } else r) : Parcel).number
      = r.number := by
  split <;> rfl

/-- The `SetAddress` row update keeps the `number` column. -/
theorem setAddressUpd_number (n : Int) (a : String) (r : Parcel) :
    ((if r.number == n && r.status == ParcelStatusRegistered then
        { r with address := a } else r) : Parcel).number = r.number := by
  split <;> rfl

/-- Under `DB.wf`, two stored rows with the same number coincide. -/
theorem wf_number_inj {db : DB} (h : db.wf) {r r' : Parcel}
    (hr : r ∈ db.rows) (hr' : r' ∈ db.rows)
    (hn : r.number = r'.number) : r = r' :=
  List.inj_on_of_nodup_map h.2 hr hr' hn

/-- A successful `get` returns a stored row with the requested
number. -/
theorem get_ok_mem {db : DB} {n : Int} {r : Parcel}
    (h : get db n = .ok r) : r ∈ db.rows ∧ r.number = n := by
  unfold get at h
  cases hf : db.rows.find? (fun r => r.number == n) with
  | none => rw [hf] at h; exact absurd h (by simp)
  | some r₀ =>
    rw [hf] at h
    cases h
    exact ⟨List.mem_of_find?_eq_some hf, by
      have := List.find?_some hf
      simpa using this⟩

/-- `get` reports `notFound` exactly when no stored row has the
requested number. -/
theorem get_notFound_iff (db : DB) (n : Int) :
    get db n = .error .notFound ↔ ∀ r ∈ db.rows, r.number ≠ n := by
  unfold get
  cases hf : db.rows.find? (fun r => r.number == n) with
  | none =>
    simp only [List.find?_eq_none] at hf
    simpa using hf
  | some r₀ =>
    have hmem := List.mem_of_find?_eq_some hf
    have hnum : r₀.number = n := by simpa using List.find?_some hf
    constructor
    · intro h; exact absurd h (by simp)
    · intro h; exact absurd hnum (h r₀ hmem)

/-- A row map that is the identity on every stored row changes
nothing. -/
theorem map_rows_id {l : List Parcel} {f : Parcel → Parcel}
    (h : ∀ r ∈ l, f r = r) : l.map f = l := by
  induction l with
  | nil => rfl
  | cons r rest ih =>
    rw [List.map_cons, h r (by simp),
      ih fun a ha => h a (List.mem_cons_of_mem _ ha)]

/-- `setStatus` on a number with no stored row changes nothing. -/
theorem setStatus_not_present {db : DB} {n : Int}
    (h : ∀ r ∈ db.rows, r.number ≠ n) (s : String) :
    setStatus db n s = db := by
  unfold setStatus
  rw [map_rows_id]
  intro r hr
  simp [h r hr]

/-- `setAddress` on a number with no stored row changes nothing. -/
theorem setAddress_not_present {db : DB} {n : Int}
    (h : ∀ r ∈ db.rows, r.number ≠ n) (a : String) :
    setAddress db n a = db := by
  unfold setAddress
  rw [map_rows_id]
  intro r hr
  simp [h r hr]

/-- `delete` of a number with no stored row changes nothing. -/
theorem delete_not_present {db : DB} {n : Int}
    (h : ∀ r ∈ db.rows, r.number ≠ n) :
    delete db n = db := by
  unfold delete
  rw [List.filter_eq_self.2]
  intro r hr
  simp [h r hr]

/-- `get` succeeds with `r` exactly when `r` is the first stored row
with the requested number. -/
theorem get_eq_ok_iff {db : DB} {n : Int} {r : Parcel} :
    get db n = .ok r ↔
      db.rows.find? (fun x => x.number == n) = some r := by
  unfold get
  cases hf : db.rows.find? (fun x => x.number == n) with
  | none => simp
  | some r₀ => simp

/-- After `setStatus db n s`, looking up `n` yields the old row with
only its status replaced. -/
theorem get_setStatus_self {db : DB} {n : Int} {r : Parcel}
    (h : get db n = .ok r) (s : String) :
    get (setStatus db n s) n = .ok { r with status := s } := by
  have hf := get_eq_ok_iff.1 h
  have hnum : r.number = n := by simpa using List.find?_some hf
  rw [get_eq_ok_iff]
  show (db.rows.map _).find? _ = _
  rw [find?_map_of_number_eq _ (setStatusUpd_number n s), hf]
  simp [hnum]

/-- After `setAddress db n a` on a row in `registered` status, looking
up `n` yields the old row with only its address replaced. -/
theorem get_setAddress_registered {db : DB} {n : Int} {r : Parcel}
    (h : get db n = .ok r) (hs : r.status = ParcelStatusRegistered)
    (a : String) :
    get (setAddress db n a) n = .ok { r with address := a } := by
  have hf := get_eq_ok_iff.1 h
  have hnum : r.number = n := by simpa using List.find?_some hf
  rw [get_eq_ok_iff]
  show (db.rows.map _).find? _ = _
  rw [find?_map_of_number_eq _ (setAddressUpd_number n a), hf]
  simp [hnum, hs]

/-- `setAddress` on a row whose status is not `registered` changes
nothing (the guarded UPDATE matches zero rows). -/
theorem setAddress_not_registered {db : DB} (hwf : db.wf) {n : Int}
    {r : Parcel} (h : get db n = .ok r)
    (hs : r.status ≠ ParcelStatusRegistered) (a : String) :
    setAddress db n a = db := by
  obtain ⟨hmem, hnum⟩ := get_ok_mem h
  unfold setAddress
  rw [map_rows_id]
  intro x hx
  by_cases hn : x.number = n
  · have hxr : x = r := wf_number_inj hwf hx hmem (hn.trans hnum.symm)
    subst hxr
    simp [hs]
  · simp [hn]

/-- `delete` of a row whose status is not `registered` changes nothing
(the guarded DELETE matches zero rows). -/
theorem delete_not_registered {db : DB} (hwf : db.wf) {n : Int}
    {r : Parcel} (h : get db n = .ok r)
    (hs : r.status ≠ ParcelStatusRegistered) :
    delete db n = db := by
  obtain ⟨hmem, hnum⟩ := get_ok_mem h
  unfold delete
  rw [List.filter_eq_self.2]
  intro x hx
  by_cases hn : x.number = n
  · have hxr : x = r := wf_number_inj hwf hx hmem (hn.trans hnum.symm)
    subst hxr
    simp [hs]
  · simp [hn]

/-- `delete` of a row in `registered` status removes it: a subsequent
lookup reports `notFound`. -/
theorem get_delete_registered {db : DB} (hwf : db.wf) {n : Int}
    {r : Parcel} (h : get db n = .ok r)
    (hs : r.status = ParcelStatusRegistered) :
    get (delete db n) n = .error .notFound := by
  obtain ⟨hmem, hnum⟩ := get_ok_mem h
  rw [get_notFound_iff]
  intro x hx hxn
  have hx' := List.mem_filter.1 hx
  have hxr : x = r := wf_number_inj hwf hx'.1 hmem (hxn.trans hnum.symm)
  subst hxr
  simp [hxn, hs] at hx'

/-- Membership in the table after `delete`: a row survives exactly
when it was stored and fails the guarded predicate. -/
theorem mem_delete_iff (db : DB) (n : Int) (r : Parcel) :
    r ∈ (delete db n).rows ↔
      r ∈ db.rows ∧ ¬(r.number = n ∧ r.status = ParcelStatusRegistered) := by
  show r ∈ db.rows.filter _ ↔ _
  rw [List.mem_filter]
  simp
  tauto

/-- The backend keeps the table well-formed across `Add`: the fresh
number is below the bumped counter and distinct from all others. -/
theorem wf_add {db : DB} (h : db.wf) (p : Parcel) : (add db p).1.wf := by
  constructor
  · intro r hr
    rcases List.mem_append.1 hr with h1 | h1
    · have := h.1 r h1
      show r.number < db.next + 1
      omega
    · have : r = { p with number := db.next } := by simpa using h1
      subst this
      show db.next < db.next + 1
      omega
  · show ((db.rows ++ [{ p with number := db.next }]).map Parcel.number).Nodup
    rw [List.map_append]
    apply List.Nodup.append h.2 (by simp)
    intro x hx hx'
    have hlt : x < db.next := by
      obtain ⟨r, hr, hrx⟩ := List.mem_map.1 hx
      exact hrx ▸ h.1 r hr
    have : x = db.next := by simpa using hx'
    omega

/-- A row map that keeps the `number` column keeps the table
well-formed. -/
theorem wf_map_rows {db : DB} (h : db.wf) {upd : Parcel → Parcel}
    (hnum : ∀ r, (upd r).number = r.number) :
    DB.wf { db with rows := db.rows.map upd } := by
  constructor
  · intro r hr
    obtain ⟨x, hx, hxr⟩ := List.mem_map.1 hr
    have : r.number = x.number := by rw [← hxr, hnum]
    rw [this]
    exact h.1 x hx
  · show ((db.rows.map upd).map Parcel.number).Nodup
    rw [List.map_map]
    have : (Parcel.number ∘ upd) = Parcel.number := funext hnum
    rw [this]
    exact h.2

/-- `SetStatus` keeps the table well-formed. -/
theorem wf_setStatus {db : DB} (h : db.wf) (n : Int) (s : String) :
    (setStatus db n s).wf :=
  wf_map_rows h (setStatusUpd_number n s)

/-- `SetAddress` keeps the table well-formed. -/
theorem wf_setAddress {db : DB} (h : db.wf) (n : Int) (a : String) :
    (setAddress db n a).wf :=
  wf_map_rows h (setAddressUpd_number n a)

/-- `Delete` keeps the table well-formed. -/
theorem wf_delete {db : DB} (h : db.wf) (n : Int) : (delete db n).wf := by
  constructor
  · intro r hr
    exact h.1 r (List.mem_filter.1 hr).1
  · exact List.Nodup.sublist
      (List.Sublist.map Parcel.number (List.filter_sublist db.rows)) h.2

/-- The row inserted by `Add` is found again by its assigned number:
none of the previously stored rows can shadow it. -/
theorem get_add {db : DB} (hwf : db.wf) (p : Parcel) :
    get (add db p).1 (add db p).2 =
      .ok { p with number := (add db p).2 } := by
  rw [get_eq_ok_iff]
  show (db.rows ++ [{ p with number := db.next }]).find? _ = _
  rw [List.find?_append]
  have h1 : db.rows.find? (fun x => x.number == (add db p).2) = none := by
    rw [List.find?_eq_none]
    intro x hx
    have := hwf.1 x hx
    show ¬(x.number == db.next) = true
    simp
    omega
  rw [h1]
  simp [add]

/-- With no scan fault, the row loop drains every fetched row in
order. -/
theorem scanRows_no_fault (l : List Parcel) (i : Nat) (acc : List Parcel) :
    scanRows l (fun _ => none) i acc = (acc ++ l, none) := by
  induction l generalizing i acc with
  | nil => simp [scanRows]
  | cons r rest ih =>
    rw [scanRows, ih (i + 1) (acc ++ [r])]
    simp

/-- If the scan of the `k`-th fetched row fails (and none before it
did), the loop stops there and returns the first `k` rows together
with the error. -/
theorem scanRows_fault (c : Nat) {f : Nat → Option Nat} (k : Nat) :
    ∀ (l : List Parcel) (i : Nat) (acc : List Parcel),
      k < l.length → (∀ j, j < k → f (i + j) = none) →
      f (i + k) = some c →
      scanRows l f i acc = (acc ++ l.take k, some (.backend c)) := by
  induction k with
  | zero =>
    intro l i acc hk hb hf
    cases l with
    | nil => simp at hk
    | cons r rest =>
      have h0 : f i = some c := by simpa using hf
      rw [scanRows, h0]
      simp
  | succ k ih =>
    intro l i acc hk hb hf
    cases l with
    | nil => simp at hk
    | cons r rest =>
      have h0 : f i = none := by simpa using hb 0 (Nat.succ_pos k)
      rw [scanRows, h0]
      rw [ih rest (i + 1) (acc ++ [r]) (by simpa using hk)
        (fun j hj => by
          rw [show i + 1 + j = i + (j + 1) by omega]
          exact hb (j + 1) (by omega))
        (by
          rw [show i + 1 + k = i + (k + 1) by omega]
          exact hf)]
      simp

/-- Any row that survives a mutating call comes from a stored row with
the same `number`, `client` and `created_at`; `setStatus` additionally
keeps the address, `setAddress` keeps the status, and each may touch
only the targeted column of the matched row. -/
theorem setStatus_frame {db : DB} {n : Int} {s : String} {x : Parcel}
    (hx : x ∈ (setStatus db n s).rows) :
    ∃ r ∈ db.rows, x.number = r.number ∧ x.client = r.client ∧
      x.address = r.address ∧ x.createdAt = r.createdAt ∧
      (x.status = s ∨ x.status = r.status) := by
  obtain ⟨r, hr, hrx⟩ := List.mem_map.1 hx
  refine ⟨r, hr, ?_⟩
  subst hrx
  split
  · exact ⟨rfl, rfl, rfl, rfl, Or.inl rfl⟩
  · exact ⟨rfl, rfl, rfl, rfl, Or.inr rfl⟩

/-- Frame property of `setAddress`: only the address column of the
matched row may change. -/
theorem setAddress_frame {db : DB} {n : Int} {a : String} {x : Parcel}
    (hx : x ∈ (setAddress db n a).rows) :
    ∃ r ∈ db.rows, x.number = r.number ∧ x.client = r.client ∧
      x.status = r.status ∧ x.createdAt = r.createdAt ∧
      (x.address = a ∨ x.address = r.address) := by
  obtain ⟨r, hr, hrx⟩ := List.mem_map.1 hx
  refine ⟨r, hr, ?_⟩
  subst hrx
  split
  · exact ⟨rfl, rfl, rfl, rfl, Or.inl rfl⟩
  · exact ⟨rfl, rfl, rfl, rfl, Or.inr rfl⟩

/-- Any row that survives one mutating call comes from a stored row
with the same `number`, `client` and `created_at`. -/
theorem applyMut_immutable {db : DB} {m : Mut} {x : Parcel}
    (hx : x ∈ (applyMut db m).rows) :
    ∃ r ∈ db.rows, x.number = r.number ∧ x.client = r.client ∧
      x.createdAt = r.createdAt := by
  cases m with
  | setSt n s =>
    obtain ⟨r, hr, h1, h2, _, h4, _⟩ := setStatus_frame hx
    exact ⟨r, hr, h1, h2, h4⟩
  | setAddr n a =>
    obtain ⟨r, hr, h1, h2, _, h4, _⟩ := setAddress_frame hx
    exact ⟨r, hr, h1, h2, h4⟩
  | del n =>
    exact ⟨x, (List.mem_filter.1 hx).1, rfl, rfl, rfl⟩

/-- Any row that survives a whole sequence of mutating calls comes
from an originally stored row with the same `number`, `client` and
`created_at`. -/
theorem applyMuts_immutable {ms : List Mut} {db : DB} {x : Parcel}
    (hx : x ∈ (applyMuts db ms).rows) :
    ∃ r ∈ db.rows, x.number = r.number ∧ x.client = r.client ∧
      x.createdAt = r.createdAt := by
  induction ms generalizing db with
  | nil => exact ⟨x, hx, rfl, rfl, rfl⟩
  | cons m rest ih =>
    have hx' : x ∈ (applyMuts (applyMut db m) rest).rows := hx
    obtain ⟨r₁, hr₁, e1, e2, e3⟩ := ih hx'
    obtain ⟨r, hr, f1, f2, f3⟩ := applyMut_immutable hr₁
    exact ⟨r, hr, e1.trans f1, e2.trans f2, e3.trans f3⟩

/-- A number-preserving row map that fixes every row of another number
leaves the rows of other numbers untouched. -/
theorem filter_other_map {n : Int} {upd : Parcel → Parcel}
    (hnum : ∀ r, (upd r).number = r.number)
    (hid : ∀ r, r.number ≠ n → upd r = r) (l : List Parcel) :
    (l.map upd).filter (fun r => !(r.number == n)) =
      l.filter (fun r => !(r.number == n)) := by
  induction l with
  | nil => rfl
  | cons r rest ih =>
    by_cases hn : r.number = n
    · simp only [List.map_cons, List.filter_cons, hnum, hn]
      simpa using ih
    · simp only [List.map_cons, List.filter_cons, hnum]
      rw [hid r hn]
      simp only [ih]

/-- `delete` leaves the rows of other numbers untouched. -/
theorem delete_filter_other (db : DB) (n : Int) :
    (delete db n).rows.filter (fun r => !(r.number == n)) =
      db.rows.filter (fun r => !(r.number == n)) := by
  show (db.rows.filter _).filter _ = _
  rw [List.filter_filter]
  apply List.filter_congr
  intro r hr
  cases hn : r.number == n <;> simp [hn]

/-- The row loop can only report backend failures, never
`notFound`. -/
theorem scanRows_err_backend :
    ∀ (l : List Parcel) (f : Nat → Option Nat) (i : Nat)
      (acc : List Parcel) (e : StoreErr),
      (scanRows l f i acc).2 = some e → ∃ c, e = .backend c := by
  intro l
  induction l with
  | nil => intro f i acc e h; exact absurd h (by simp [scanRows])
  | cons r rest ih =>
    intro f i acc e h
    rw [scanRows] at h
    cases hf : f i with
    | some c =>
      rw [hf] at h
      exact ⟨c, by simpa using h.symm⟩
    | none =>
      rw [hf] at h
      exact ih f (i + 1) (acc ++ [r]) e h

/-!
## Claim theorems
-/

/-- C1: `Delete(number)` removes the stored row exactly when its
current status is `registered`, through the guard inside the single
DELETE statement; zero matched rows (unknown number, or status not
`registered`) leave the table unchanged and `Delete` still succeeds.
For a parcel created in `registered` status, `Delete` makes a
subsequent `Get` report `notFound`, while after
`SetStatus(number, "sent")` a `Delete` leaves the record unchanged and
`Get` still succeeds with the same data. -/
theorem delete_guarded_registered (db : DB) (hwf : db.wf) (n : Int) :
    (∀ r : Parcel, r ∈ (delete db n).rows ↔
        r ∈ db.rows ∧ ¬(r.number = n ∧ r.status = ParcelStatusRegistered)) ∧
    deleteE none db n = (delete db n, none) ∧
    (∀ r : Parcel, get db n = .ok r →
      (r.status = ParcelStatusRegistered →
        get (delete db n) n = .error .notFound) ∧
      (r.status ≠ ParcelStatusRegistered → delete db n = db)) ∧
    (get db n = .error .notFound → delete db n = db) ∧
    (∀ p : Parcel, p.status = ParcelStatusRegistered →
      get (delete (add db p).1 (add db p).2) (add db p).2 =
        .error .notFound) ∧
    (∀ p : Parcel,
      delete (setStatus (add db p).1 (add db p).2 ParcelStatusSent)
          (add db p).2 =
        setStatus (add db p).1 (add db p).2 ParcelStatusSent ∧
      get (setStatus (add db p).1 (add db p).2 ParcelStatusSent)
          (add db p).2 =
        .ok { p with number := (add db p).2, status := ParcelStatusSent }) := by
  refine ⟨mem_delete_iff db n, rfl, ?_, ?_, ?_, ?_⟩
  · intro r h
    exact ⟨fun hs => get_delete_registered hwf h hs,
      fun hs => delete_not_registered hwf h hs⟩
  · intro h
    exact delete_not_present ((get_notFound_iff db n).1 h)
  · intro p hp
    have hget := get_add hwf p
    exact get_delete_registered (wf_add hwf p) hget hp
  · intro p
    have hget := get_add hwf p
    have hsent := get_setStatus_self hget ParcelStatusSent
    refine ⟨?_, hsent⟩
    exact delete_not_registered (wf_setStatus (wf_add hwf p) _ _) hsent
      (by show ParcelStatusSent ≠ ParcelStatusRegistered
          decide)

/-- C1 witness: on a concrete table, deleting the `registered` row
makes its lookup report `notFound`, and deleting the `sent` row leaves
the table unchanged. -/
theorem delete_guarded_registered_witness :
    get (delete dbW 1) 1 = .error .notFound ∧ delete dbW 2 = dbW := by
  have h1 := delete_guarded_registered dbW ⟨by decide, by decide⟩ 1
  have h2 := delete_guarded_registered dbW ⟨by decide, by decide⟩ 2
  exact ⟨(h1.2.2.1 rowW (by rfl)).1 (by rfl),
    (h2.2.2.1 rowW2 (by rfl)).2 (by decide)⟩

/-- C2: `SetAddress(number, newAddress)` updates the stored address
exactly when the matched row's current status is `registered`, through
the guard inside the single UPDATE statement; when the row does not
exist or its status is not `registered`, the table is unchanged and
`SetAddress` still succeeds. -/
theorem setAddress_guarded_registered (db : DB) (hwf : db.wf) (n : Int)
    (a : String) :
    setAddressE none db n a = (setAddress db n a, none) ∧
    (∀ r : Parcel, get db n = .ok r →
      (r.status = ParcelStatusRegistered →
        get (setAddress db n a) n = .ok { r with address := a }) ∧
      (r.status ≠ ParcelStatusRegistered → setAddress db n a = db)) ∧
    (get db n = .error .notFound → setAddress db n a = db) := by
  refine ⟨rfl, ?_, ?_⟩
  · intro r h
    exact ⟨fun hs => get_setAddress_registered h hs a,
      fun hs => setAddress_not_registered hwf h hs a⟩
  · intro h
    exact setAddress_not_present ((get_notFound_iff db n).1 h) a

/-- C2 witness: on a concrete table, `SetAddress` rewrites the address
of the `registered` row and leaves the table unchanged for the `sent`
row and for an unknown number. -/
theorem setAddress_guarded_registered_witness :
    get (setAddress dbW 1 "new") 1 = .ok { rowW with address := "new" } ∧
    setAddress dbW 2 "new" = dbW ∧ setAddress dbW 9 "new" = dbW := by
  have h1 := setAddress_guarded_registered dbW ⟨by decide, by decide⟩ 1 "new"
  have h2 := setAddress_guarded_registered dbW ⟨by decide, by decide⟩ 2 "new"
  have h9 := setAddress_guarded_registered dbW ⟨by decide, by decide⟩ 9 "new"
  exact ⟨(h1.2.1 rowW (by rfl)).1 (by rfl),
    (h2.2.1 rowW2 (by rfl)).2 (by decide),
    h9.2.2 (by rfl)⟩

/-- C3: for every parcel value `p`, adding it and fetching the number
`Add` returned yields a record equal to `p` in the `Client`, `Status`,
`Address` and `CreatedAt` fields, whose `Number` field is the value
`Add` returned. -/
theorem add_get_round_trip (db : DB) (hwf : db.wf) (p : Parcel) :
    ∃ q : Parcel, get (add db p).1 (add db p).2 = .ok q ∧
      q.client = p.client ∧ q.status = p.status ∧
      q.address = p.address ∧ q.createdAt = p.createdAt ∧
      q.number = (add db p).2 :=
  ⟨{ p with number := (add db p).2 }, get_add hwf p,
    rfl, rfl, rfl, rfl, rfl⟩

/-- C3 witness: the round trip evaluated on a concrete table and
parcel. -/
theorem add_get_round_trip_witness :
    ∃ q : Parcel, get (add dbW rowW).1 (add dbW rowW).2 = .ok q ∧
      q.client = rowW.client ∧ q.status = rowW.status ∧
      q.address = rowW.address ∧ q.createdAt = rowW.createdAt ∧
      q.number = (add dbW rowW).2 :=
  add_get_round_trip dbW ⟨by decide, by decide⟩ rowW

/-- C4: `Get` reports `notFound` exactly when no stored row has the
requested number; `notFound` is distinct from every backend failure,
so callers can branch on it; and no operation other than `Get` ever
returns `notFound`. -/
theorem get_notFound_only (db : DB) (n : Int) :
    (get db n = .error .notFound ↔ ∀ r ∈ db.rows, r.number ≠ n) ∧
    (∀ c : Nat, (StoreErr.notFound : StoreErr) ≠ .backend c) ∧
    (∀ ef lf p e, (addE ef lf db p).2.2 = some e → e ≠ .notFound) ∧
    (∀ f s e, (setStatusE f db n s).2 = some e → e ≠ .notFound) ∧
    (∀ f a e, (setAddressE f db n a).2 = some e → e ≠ .notFound) ∧
    (∀ f e, (deleteE f db n).2 = some e → e ≠ .notFound) ∧
    (∀ qf sf itf c e,
      (getByClientE qf sf itf db c).2 = some e → e ≠ .notFound) := by
  refine ⟨get_notFound_iff db n, fun c => by simp, ?_, ?_, ?_, ?_, ?_⟩
  · intro ef lf p e h
    cases ef with
    | some c =>
      have : e = .backend c := by simpa [addE] using h.symm
      simp [this]
    | none =>
      cases lf with
      | some c =>
        have : e = .backend c := by simpa [addE, add] using h.symm
        simp [this]
      | none => exact absurd h (by simp [addE, add])
  · intro f s e h
    cases f with
    | some c =>
      have : e = .backend c := by simpa [setStatusE] using h.symm
      simp [this]
    | none => exact absurd h (by simp [setStatusE])
  · intro f a e h
    cases f with
    | some c =>
      have : e = .backend c := by simpa [setAddressE] using h.symm
      simp [this]
    | none => exact absurd h (by simp [setAddressE])
  · intro f e h
    cases f with
    | some c =>
      have : e = .backend c := by simpa [deleteE] using h.symm
      simp [this]
    | none => exact absurd h (by simp [deleteE])
  · intro qf sf itf c e h
    cases qf with
    | some q =>
      have : e = .backend q := by simpa [getByClientE] using h.symm
      simp [this]
    | none =>
      unfold getByClientE at h
      cases hs : (scanRows (getByClient db c) sf 0 []).2 with
      | some e' =>
        obtain ⟨c', hc'⟩ := scanRows_err_backend _ sf 0 [] e' hs
        have : e = e' := by
          simp only [hs] at h
          simpa using h.symm
        simp [this, hc']
      | none =>
        simp only [hs] at h
        cases itf with
        | some c' =>
          have : e = .backend c' := by simpa using h.symm
          simp [this]
        | none => exact absurd h (by simp)

/-- C4 witness: on a concrete table, an unknown number yields
`notFound`, and a faulted `Delete` yields a backend error distinct
from `notFound`. -/
theorem get_notFound_only_witness :
    get dbW 9 = .error .notFound ∧
    ∀ e, (deleteE (some 5) dbW 9).2 = some e → e ≠ .notFound := by
  have h := get_notFound_only dbW 9
  exact ⟨h.1.2 (by decide), fun e he => h.2.2.2.2.2.1 (some 5) e he⟩

/-- C5: `SetStatus(number, s)` overwrites the stored status with any
string `s`, with no validation against the status set or the current
status, so a subsequent `Get` reports status `s`; on an unknown number
it is a silent no-op that still succeeds. -/
theorem setStatus_unconditional (db : DB) (n : Int) (s : String) :
    (∀ r : Parcel, get db n = .ok r →
      get (setStatus db n s) n = .ok { r with status := s } ∧
      (get (setStatus db n s) n).map Parcel.status = .ok s) ∧
    (get db n = .error .notFound → setStatus db n s = db) ∧
    setStatusE none db n s = (setStatus db n s, none) := by
  refine ⟨?_, ?_, rfl⟩
  · intro r h
    have hg := get_setStatus_self h s
    exact ⟨hg, by rw [hg]; rfl⟩
  · intro h
    exact setStatus_not_present ((get_notFound_iff db n).1 h) s

/-- C5 witness: on a concrete table, setting an arbitrary status
string (even outside the enumerated set) is observed by `Get`, and an
unknown number is a silent no-op. -/
theorem setStatus_unconditional_witness :
    get (setStatus dbW 2 "weird") 2 = .ok { rowW2 with status := "weird" } ∧
    setStatus dbW 9 "sent" = dbW := by
  have h2 := setStatus_unconditional dbW 2 "weird"
  have h9 := setStatus_unconditional dbW 9 "sent"
  exact ⟨(h2.1 rowW2 (by rfl)).1, h9.2.1 (by rfl)⟩

/-- C6: `GetByClient(c)` returns exactly the stored rows whose client
field equals `c`, each with its stored field values and in storage
order; when no row matches it returns the empty sequence and no
error. -/
theorem getByClient_exact (db : DB) (c : Int) :
    (∀ p : Parcel, p ∈ getByClient db c ↔ p ∈ db.rows ∧ p.client = c) ∧
    List.Sublist (getByClient db c) db.rows ∧
    getByClientE none (fun _ => none) none db c = (getByClient db c, none) ∧
    ((∀ r ∈ db.rows, r.client ≠ c) → getByClient db c = []) := by
  refine ⟨?_, List.filter_sublist db.rows, ?_, ?_⟩
  · intro p
    show p ∈ db.rows.filter _ ↔ _
    rw [List.mem_filter]
    simp
  · unfold getByClientE
    rw [scanRows_no_fault]
    simp
  · intro h
    unfold getByClient
    rw [List.filter_eq_nil_iff]
    intro r hr
    simp [h r hr]

/-- C6 witness: on a concrete table, the client filter returns exactly
the matching row and an unmatched client yields the empty sequence. -/
theorem getByClient_exact_witness :
    (rowW ∈ getByClient dbW 1000 ↔ rowW ∈ dbW.rows ∧ rowW.client = 1000) ∧
    getByClient dbW 555 = [] := by
  have h1 := getByClient_exact dbW 1000
  have h5 := getByClient_exact dbW 555
  exact ⟨h1.1 rowW, h5.2.2.2 (by decide)⟩

/-- C7: when the storage call of an operation fails, the operation
returns that same error to its caller (with its cause), performs no
retry, and the stored state is unchanged. -/
theorem storage_error_propagation (db : DB) (p : Parcel) (n : Int)
    (s a : String) (cl : Int) (c : Nat) (lf : Option Nat)
    (sf : Nat → Option Nat) (itf : Option Nat) :
    addE (some c) lf db p = (db, 0, some (.backend c)) ∧
    getE (some c) db n = .error (.backend c) ∧
    getByClientE (some c) sf itf db cl = ([], some (.backend c)) ∧
    setStatusE (some c) db n s = (db, some (.backend c)) ∧
    setAddressE (some c) db n a = (db, some (.backend c)) ∧
    deleteE (some c) db n = (db, some (.backend c)) :=
  ⟨rfl, rfl, rfl, rfl, rfl, rfl⟩

/-- C8: no sequence of `SetStatus`, `SetAddress` and `Delete` calls
ever changes the `number`, `client` or `created_at` column of a row
that remains stored; moreover one `SetStatus` may touch only the
status column of its rows and one `SetAddress` only the address
column. -/
theorem mutation_frame (db : DB) (ms : List Mut) (n : Int) (s a : String) :
    (∀ x : Parcel, x ∈ (applyMuts db ms).rows →
      ∃ r ∈ db.rows, x.number = r.number ∧ x.client = r.client ∧
        x.createdAt = r.createdAt) ∧
    (∀ x : Parcel, x ∈ (setStatus db n s).rows →
      ∃ r ∈ db.rows, x.number = r.number ∧ x.client = r.client ∧
        x.address = r.address ∧ x.createdAt = r.createdAt ∧
        (x.status = s ∨ x.status = r.status)) ∧
    (∀ x : Parcel, x ∈ (setAddress db n a).rows →
      ∃ r ∈ db.rows, x.number = r.number ∧ x.client = r.client ∧
        x.status = r.status ∧ x.createdAt = r.createdAt ∧
        (x.address = a ∨ x.address = r.address)) :=
  ⟨fun _ hx => applyMuts_immutable hx,
   fun _ hx => setStatus_frame hx,
   fun _ hx => setAddress_frame hx⟩

/-- C8 witness: the frame property evaluated on a concrete table after
a concrete sequence of mutations. -/
theorem mutation_frame_witness :
    ∃ r ∈ dbW.rows,
      ({ rowW with status := "sent" } : Parcel).number = r.number ∧
      ({ rowW with status := "sent" } : Parcel).client = r.client ∧
      ({ rowW with status := "sent" } : Parcel).createdAt = r.createdAt :=
  (mutation_frame dbW [Mut.setSt 1 "sent", Mut.del 2] 1 "sent" "x").1
    { rowW with status := "sent" } (by decide)

/-- C9: when a row scan fails partway through `GetByClient`, the
method returns the rows successfully read before the failure together
with the non-nil error, rather than discarding them. -/
theorem getByClient_partial_on_scan_error (db : DB) (c : Int)
    (k cause : Nat) (hk : k < (getByClient db c).length) :
    getByClientE none (fun j => if j == k then some cause else none) none
        db c =
      ((getByClient db c).take k, some (.backend cause)) := by
  unfold getByClientE
  rw [scanRows_fault cause k (getByClient db c) 0 [] hk
    (fun j hj => by simp [Nat.ne_of_lt hj])
    (by simp)]
  simp

/-- C9 witness: a concrete scan failure at the first fetched row
returns the empty prefix with the backend error. -/
theorem getByClient_partial_on_scan_error_witness :
    getByClientE none (fun j => if j == 0 then some 3 else none) none
        dbW 1000 =
      ((getByClient dbW 1000).take 0, some (.backend 3)) :=
  getByClient_partial_on_scan_error dbW 1000 0 3 (by decide)

/-- C10: `SetStatus`, `SetAddress` and `Delete` each affect at most
the single row whose number equals their argument: the sublist of rows
with any other number is untouched, and on a storage failure the whole
table is untouched. -/
theorem mutations_touch_only_target_number (db : DB) (n : Int)
    (s a : String) (c : Nat) :
    (setStatus db n s).rows.filter (fun r => !(r.number == n)) =
      db.rows.filter (fun r => !(r.number == n)) ∧
    (setAddress db n a).rows.filter (fun r => !(r.number == n)) =
      db.rows.filter (fun r => !(r.number == n)) ∧
    (delete db n).rows.filter (fun r => !(r.number == n)) =
      db.rows.filter (fun r => !(r.number == n)) ∧
    (setStatusE (some c) db n s).1 = db ∧
    (setAddressE (some c) db n a).1 = db ∧
    (deleteE (some c) db n).1 = db := by
  refine ⟨?_, ?_, delete_filter_other db n, rfl, rfl, rfl⟩
  · exact filter_other_map (setStatusUpd_number n s)
      (fun r hr => by simp [hr]) db.rows
  · exact filter_other_map (setAddressUpd_number n a)
      (fun r hr => by simp [hr]) db.rows

end ParcelStore
